import Mathlib

/-! Shallow embedding of the fork-orchestration core of the repository
(`src/src/components/ForkTerminalUI.tsx`, `src/unnamed/part_000` =
`useForks.ts` + `api/client.ts`, `src/unnamed/part_001` = `types.ts`).

Conventions of the embedding:
* timestamps (`new Date()`, `Date.now()`) are `Nat` parameters called `now`;
* random draws (`Math.random()`-derived values) are explicit oracle
  parameters;
* React state (`useState`) is explicit: every operation takes the relevant
  registry (`List Fork`) and returns the updated one.  A functional update
  `setX(prev => e)` acts on the current registry, while a plain read of a
  state variable inside a `useCallback` closure sees the value captured at
  the render that created the callback; operations that mix the two
  (the launch paths, which read `localForks` through `canLaunchFork` while
  updating through `setLocalForks(prev => ...)`) therefore take a separate
  `snapshot` argument holding the captured value.
-/

/-- Embeds `ForkStatus` from `types.ts`:
`'queued' | 'spawning' | 'running' | 'completed' | 'failed' | 'cancelled' | 'terminated'`. -/
inductive ForkStatus where
  | queued
  | spawning
  | running
  | completed
  | failed
  | cancelled
  | terminated
deriving DecidableEq, Repr

/-- The model tier union `'fast' | 'default' | 'heavy'` from `types.ts`. -/
inductive ModelTier where
  | fast
  | default
  | heavy
deriving DecidableEq, Repr

/-- One entry of `Fork.output`: `{ time: Date; text: string }`. -/
structure OutputLine where
  time : Nat
  text : String
deriving DecidableEq, Repr

/-- The `Fork` interface from `types.ts`. -/
structure Fork where
  id : String
  agent : String
  model : String
  modelTier : ModelTier
  status : ForkStatus
  task : String
  prompt : String
  startedAt : Nat
  completedAt : Option Nat
  duration : Option Nat
  progress : Nat
  pid : Option Nat
  output : List OutputLine
  includeSummary : Bool
  workflowId : Option String
deriving DecidableEq, Repr

/-- The slice of `AgentConfig` the orchestration core reads:
the per-tier model table `models : { fast; default; heavy }`. -/
structure AgentConfig where
  models : ModelTier → String

/-- The fields of the Gateway response to `POST /forks` that `launchFork`
reads from `result` (`result.id`, `result.pid`). -/
structure ApiForkResult where
  id : String
  pid : Option Nat
deriving DecidableEq, Repr

/-- Embeds `QueueItem` from `types.ts`. -/
structure QueueItem where
  id : Nat
  agent : String
  modelTier : ModelTier
  prompt : String
  includeSummary : Bool

/-- Embeds `WorkflowFork` from `types.ts`. -/
structure WorkflowFork where
  agent : String
  modelTier : ModelTier
  prompt : String

/-- Embeds `WorkflowTemplate` from `types.ts` (fields the launch path reads). -/
structure WorkflowTemplate where
  id : String
  name : String
  forks : List WorkflowFork

/-- The fields of `AppSettings` consumed by the orchestration core. -/
structure AppSettings where
  autoFocus : Bool
  soundEnabled : Bool
  maxConcurrent : Nat
deriving DecidableEq, Repr

/-- The two fork registries held by the component: `localForks`
(`useState<Fork[]>([])` in `ForkTerminalUI`) and the Gateway-fetched
`forks` state of the `useForks` hook (`apiForks` at the use site),
together with the settings. -/
structure UiState where
  localForks : List Fork
  apiForks : List Fork
  settings : AppSettings

/-- The `TerminalLine.type` union from `types.ts`. -/
inductive TermType where
  | system
  | info
  | success
  | error
  | warning
  | spawn
  | workflow
deriving DecidableEq, Repr

/-- Embeds `TerminalLine` from `types.ts`. -/
structure TerminalLine where
  type : TermType
  text : String
  time : Nat
deriving DecidableEq, Repr

/-- The random draws consumed by one fork in one iteration of the progress
simulation interval (`Math.random() * 8 + 2`, the `> 0.7` output draw, the
`> 0.1` success draw). -/
structure TickRand where
  incr : Nat
  emit : Bool
  text : String
  succeed : Bool

/-- The mutable state of `ForkWebSocket` relevant to reconnection:
`reconnectAttempts`. -/
structure WsState where
  reconnectAttempts : Nat
deriving DecidableEq, Repr

/-- Result of a launch-path call: the final registry, the intermediate
registry written by the `spawning` update when admission was granted
(`none` when the Gateway was never contacted), and whether
`apiCreateFork` (the Gateway `POST /forks`) was called. -/
structure LaunchResult where
  forks : List Fork
  spawnForks : Option (List Fork)
  gatewayCalled : Bool

/-- Embeds `['running', 'spawning', 'queued'].includes(f.status)` from
`canLaunchFork`. -/
def isActive (s : ForkStatus) : Bool :=
  s = ForkStatus.running || s = ForkStatus.spawning || s = ForkStatus.queued

/-- Embeds `canLaunchFork` (ForkTerminalUI.tsx lines 364-369): counts the local
forks whose status is in `{running, spawning, queued}` and compares with
`settings.maxConcurrent`. -/
def canLaunchFork (localForks : List Fork) (maxConcurrent : Nat) : Bool :=
  decide ((localForks.filter (fun f => isActive f.status)).length < maxConcurrent)

/-- Reads `canLaunchFork` from the component state: its closure captures
only `localForks` and `settings.maxConcurrent`. -/
def canLaunchForkState (s : UiState) : Bool :=
  canLaunchFork s.localForks s.settings.maxConcurrent

/-- The placeholder id `` `local-${forkIdCounter.current++}` ``. -/
def localId (c : Nat) : String :=
  "local-" ++ toString c

/-- Embeds `agentConfig?.models[tier] || 'N/A'`: optional chaining plus the JS
falsy-string fallback (an empty model name also falls back). -/
def modelFor (agents : String → Option AgentConfig) (agent : String)
    (tier : ModelTier) : String :=
  match agents agent with
  | some a => if a.models tier = "" then "N/A" else a.models tier
  | none => "N/A"

/-- Embeds `createLocalFork` (ForkTerminalUI.tsx lines 371-389).  `c` is the value
of `forkIdCounter.current` consumed by this call; `options.includeSummary
|| false` collapses to the boolean argument, absent options to `false` /
`none`. -/
def createLocalFork (agents : String → Option AgentConfig) (c : Nat)
    (agent : String) (tier : ModelTier) (taskPrompt : String)
    (includeSummary : Bool) (workflowId : Option String) (now : Nat) : Fork :=
  { id := localId c
    agent := agent
    model := modelFor agents agent tier
    modelTier := tier
    status := ForkStatus.queued
    task := taskPrompt
    prompt := taskPrompt
    startedAt := now
    completedAt := none
    duration := none
    progress := 0
    pid := none
    output := []
    includeSummary := includeSummary
    workflowId := workflowId }

/-- Embeds `result.pid || Math.floor(Math.random() * 90000) + 10000`: a missing
or zero (JS-falsy) pid is replaced by the random draw `randPid`. -/
def resolvePid (apiPid : Option Nat) (randPid : Nat) : Nat :=
  match apiPid with
  | some p => if p = 0 then randPid else p
  | none => randPid

/-- Element transformer of the first `setLocalForks` in `launchFork`
(lines 400-402): the matching fork goes to `spawning` with a fresh
`startedAt`. -/
def spawnStep (forkId : String) (now : Nat) (f : Fork) : Fork :=
  if f.id = forkId then { f with status := ForkStatus.spawning, startedAt := now } else f

/-- The `spawning` write of `launchFork` over the whole registry. -/
def setStatusSpawning (forkId : String) (now : Nat) (forks : List Fork) : List Fork :=
  forks.map (spawnStep forkId now)

/-- Element transformer of the post-Gateway `setLocalForks` in `launchFork`
(lines 420-433): on success the matching fork takes the Gateway id, goes
`running` with progress 5 and a pid; on failure it goes `failed`. -/
def applyCreateStep (forkId : String) (result : Option ApiForkResult)
    (randPid : Nat) (f : Fork) : Fork :=
  match result with
  | some r =>
      if f.id = forkId then
        { f with id := r.id, status := ForkStatus.running, progress := 5,
                 pid := some (resolvePid r.pid randPid) }
      else f
  | none =>
      if f.id = forkId then { f with status := ForkStatus.failed } else f

/-- The post-Gateway write of `launchFork` over the whole registry. -/
def applyCreateResult (forkId : String) (result : Option ApiForkResult)
    (randPid : Nat) (forks : List Fork) : List Fork :=
  forks.map (applyCreateStep forkId result randPid)

/-- Embeds `launchFork` (ForkTerminalUI.tsx lines 391-437).  `snapshot` is the
`localForks` value captured by the `useCallback` closure that
`canLaunchFork` reads; `forks` is the current registry that the functional
`setLocalForks(prev => ...)` updates act on.  `apiResult` is the outcome of
`apiCreateFork` (`none` models a Gateway failure), `randPid` the random pid
fallback.  Terminal-log appends and sounds do not touch the registry and
are modelled separately (`addTerminalLine`). -/
def launchFork (snapshot : List Fork) (maxConcurrent : Nat) (fork : Fork)
    (apiResult : Option ApiForkResult) (randPid now : Nat)
    (forks : List Fork) : LaunchResult :=
  if canLaunchFork snapshot maxConcurrent then
    let s := setStatusSpawning fork.id now forks
    { forks := applyCreateResult fork.id apiResult randPid s,
      spawnForks := some s,
      gatewayCalled := true }
  else
    { forks := forks, spawnForks := none, gatewayCalled := false }

/-- JS `String.prototype.trim`: strip leading and trailing whitespace
(an executable equivalent of `String.trim`, written over the character
list so that concrete instances reduce). -/
def jsTrim (s : String) : String :=
  ⟨((s.data.dropWhile Char.isWhitespace).reverse.dropWhile Char.isWhitespace).reverse⟩

/-- Embeds `launchSingleFork` (ForkTerminalUI.tsx lines 439-451): empty trimmed
prompt is a no-op; otherwise a local fork is created, prepended, and after
the animation delay `launchFork` runs with the `localForks` snapshot from
the render at which the call was made (the snapshot does not contain the
fork just created). -/
def launchSingleFork (agents : String → Option AgentConfig) (c : Nat)
    (selectedAgent : String) (tier : ModelTier) (prompt : String)
    (includeSummary : Bool) (apiResult : Option ApiForkResult)
    (randPid now maxConcurrent : Nat) (localForks : List Fork) : LaunchResult :=
  if jsTrim prompt = "" then
    { forks := localForks, spawnForks := none, gatewayCalled := false }
  else
    let fork := createLocalFork agents c selectedAgent tier prompt includeSummary none now
    launchFork localForks maxConcurrent fork apiResult randPid now (fork :: localForks)

/-- The staggered dispatch loop shared by `launchMultiFork` (lines 466-469)
and `launchWorkflow` (lines 486-489): one `launchFork` per created fork, in
order, against the fixed `snapshot` captured when the batch began.
`oracle i` supplies the Gateway outcome and random pid for the i-th
dispatch; the stagger delays (500 ms / 600 ms) only affect timing, not
state, and are not modelled. -/
def dispatchBatch (snapshot : List Fork) (maxConcurrent now : Nat)
    (oracle : Nat → Option ApiForkResult × Nat) :
    Nat → List Fork → List Fork → List Fork × List Bool
  | _, [], forks => (forks, [])
  | i, fk :: rest, forks =>
      let r := launchFork snapshot maxConcurrent fk (oracle i).1 (oracle i).2 now forks
      let rec' := dispatchBatch snapshot maxConcurrent now oracle (i + 1) rest r.forks
      (rec'.1, r.gatewayCalled :: rec'.2)

/-- Embeds `launchMultiFork` (ForkTerminalUI.tsx lines 453-473): empty queue is a
no-op; otherwise one local fork per queue item (consuming consecutive
counter values from `c`), all prepended at once, then staggered dispatch
against the pre-batch snapshot. -/
def launchMultiFork (agents : String → Option AgentConfig) (c : Nat)
    (queue : List QueueItem) (oracle : Nat → Option ApiForkResult × Nat)
    (maxConcurrent now : Nat) (localForks : List Fork) : List Fork × List Bool :=
  if queue.isEmpty then (localForks, [])
  else
    let newForks := queue.enum.map (fun p =>
      createLocalFork agents (c + p.1) p.2.agent p.2.modelTier p.2.prompt
        p.2.includeSummary none now)
    dispatchBatch localForks maxConcurrent now oracle 0 newForks (newForks ++ localForks)

/-- Embeds `launchWorkflow` (ForkTerminalUI.tsx lines 475-492): like
`launchMultiFork` but from a template, every fork carrying the template id
as `workflowId` and `includeSummary` defaulting to false; no empty check. -/
def launchWorkflow (agents : String → Option AgentConfig) (c : Nat)
    (wf : WorkflowTemplate) (oracle : Nat → Option ApiForkResult × Nat)
    (maxConcurrent now : Nat) (localForks : List Fork) : List Fork × List Bool :=
  let newForks := wf.forks.enum.map (fun p =>
    createLocalFork agents (c + p.1) p.2.agent p.2.modelTier p.2.prompt
      false (some wf.id) now)
  dispatchBatch localForks maxConcurrent now oracle 0 newForks (newForks ++ localForks)

/-- Embeds `retryFork` (ForkTerminalUI.tsx lines 505-512): a fresh local fork is
created from the old fork's agent/tier/task/includeSummary/workflowId,
prepended, and launched after a delay with the pre-call snapshot. -/
def retryFork (agents : String → Option AgentConfig) (c : Nat) (fork : Fork)
    (apiResult : Option ApiForkResult) (randPid now maxConcurrent : Nat)
    (localForks : List Fork) : LaunchResult :=
  let newFork := createLocalFork agents c fork.agent fork.modelTier fork.task
    fork.includeSummary fork.workflowId now
  launchFork localForks maxConcurrent newFork apiResult randPid now (newFork :: localForks)

/-- Embeds `['running', 'queued', 'spawning'].includes(f.status)` from
`cancelFork`. -/
def cancellable (s : ForkStatus) : Bool :=
  s = ForkStatus.running || s = ForkStatus.queued || s = ForkStatus.spawning

/-- Element transformer of the `setLocalForks` in `cancelFork`
(ForkTerminalUI.tsx lines 496-500): only a matching fork in a cancellable
status is marked `cancelled` with `completedAt` set.  (`cancelFork` also
awaits `terminateFork`, which updates the api registry; see
`terminateForkUpdate`.) -/
def cancelForkStep (forkId : String) (now : Nat) (f : Fork) : Fork :=
  if f.id = forkId && cancellable f.status then
    { f with status := ForkStatus.cancelled, completedAt := some now }
  else f

/-- The local-registry update of `cancelFork`. -/
def cancelForkLocal (forkId : String) (now : Nat) (forks : List Fork) : List Fork :=
  forks.map (cancelForkStep forkId now)

/-- Element transformer of `terminateFork` in `useForks` (part_000 lines
88-98) on api success: the matching fork is set to `terminated`
unconditionally (no status guard). -/
def terminateForkStep (forkId : String) (f : Fork) : Fork :=
  if f.id = forkId then { f with status := ForkStatus.terminated } else f

/-- The api-registry update of a successful `terminateFork`. -/
def terminateForkUpdate (forkId : String) (forks : List Fork) : List Fork :=
  forks.map (terminateForkStep forkId)

/-- The `fork_update` handler (part_000 lines 27-33): the matching record
is replaced wholesale by the fork carried in the event. -/
def forkUpdateEvent (updatedFork : Fork) (forks : List Fork) : List Fork :=
  forks.map (fun f => if f.id = updatedFork.id then updatedFork else f)

/-- Element transformer of the `fork_output` handler (part_000 lines
35-43): the carried line is appended to the matching fork's output. -/
def forkOutputStep (forkId text : String) (now : Nat) (f : Fork) : Fork :=
  if f.id = forkId then { f with output := f.output ++ [{ time := now, text := text }] }
  else f

/-- The `fork_output` handler over the registry. -/
def forkOutputEvent (forkId text : String) (now : Nat) (forks : List Fork) : List Fork :=
  forks.map (forkOutputStep forkId text now)

/-- Element transformer of the `fork_completed` handler (part_000 lines
45-55): the matching fork gets status `completed`, progress 100 and a
`completedAt`, unconditionally. -/
def forkCompletedStep (forkId : String) (now : Nat) (f : Fork) : Fork :=
  if f.id = forkId then
    { f with status := ForkStatus.completed, progress := 100, completedAt := some now }
  else f

/-- The `fork_completed` handler over the registry. -/
def forkCompletedEvent (forkId : String) (now : Nat) (forks : List Fork) : List Fork :=
  forks.map (forkCompletedStep forkId now)

/-- Element transformer of the `fork_failed` handler (part_000 lines
57-67): the matching fork gets status `failed` and an appended error line,
unconditionally. -/
def forkFailedStep (forkId err : String) (now : Nat) (f : Fork) : Fork :=
  if f.id = forkId then
    { f with status := ForkStatus.failed,
             output := f.output ++ [{ time := now, text := "Error: " ++ err }] }
  else f

/-- The `fork_failed` handler over the registry. -/
def forkFailedEvent (forkId err : String) (now : Nat) (forks : List Fork) : List Fork :=
  forks.map (forkFailedStep forkId err now)

/-- Element transformer of the progress-simulation interval
(ForkTerminalUI.tsx lines 564-592): only a `running` fork with progress
below 100 is touched; it may gain an output line, and on reaching 100 it
becomes `completed` or `failed` with `completedAt` and `duration` set. -/
def tickStep (r : TickRand) (now : Nat) (f : Fork) : Fork :=
  if f.status = ForkStatus.running && decide (f.progress < 100) then
    let newProgress := min 100 (f.progress + r.incr)
    let newOutput := if r.emit then f.output ++ [{ time := now, text := r.text }] else f.output
    if 100 ≤ newProgress then
      { f with progress := 100,
               status := if r.succeed then ForkStatus.completed else ForkStatus.failed,
               completedAt := some now,
               duration := some (now - f.startedAt),
               output := newOutput }
    else
      { f with progress := newProgress, output := newOutput }
  else f

/-- One iteration of the progress-simulation interval over the registry,
with a per-fork random oracle. -/
def progressTick (rnd : Fork → TickRand) (now : Nat) (forks : List Fork) : List Fork :=
  forks.map (fun f => tickStep (rnd f) now f)

/-- The merged view `allForks` (ForkTerminalUI.tsx lines 547-558): local
forks first, then every api fork whose id is not locally present.  The
runtime output normalization is the identity on records that already have
the typed `(time, text)` shape, which is what the `Fork` type prescribes. -/
def allForks (localForks apiForks : List Fork) : List Fork :=
  localForks ++
    apiForks.filter (fun a => (localForks.find? (fun lf => lf.id = a.id)).isNone)

/-- Status of the first record with the given id, as a reader of a
registry or of the merged view sees it. -/
def statusOf (forks : List Fork) (id : String) : Option ForkStatus :=
  (forks.find? (fun f => f.id = id)).map (fun f => f.status)

/-- Output of the first record with the given id. -/
def outputOf (forks : List Fork) (id : String) : Option (List OutputLine) :=
  (forks.find? (fun f => f.id = id)).map (fun f => f.output)

/-- Count of forks with status `running`. -/
def runningCount (forks : List Fork) : Nat :=
  (forks.filter (fun f => f.status = ForkStatus.running)).length

/-- Membership in the terminal-status set
`{completed, failed, cancelled, terminated}`. -/
def isTerminal (s : ForkStatus) : Bool :=
  s = ForkStatus.completed || s = ForkStatus.failed ||
    s = ForkStatus.cancelled || s = ForkStatus.terminated

/-- JS `arr.slice(-n)`: the at-most-`n` most recent entries. -/
def jsSliceLast (n : Nat) (l : List TerminalLine) : List TerminalLine :=
  l.drop (l.length - n)

/-- Embeds `addTerminalLine` (ForkTerminalUI.tsx lines 279-281):
`prev => [...prev.slice(-100), { type, text: "> " + text, time: new Date() }]`. -/
def addTerminalLine (ty : TermType) (text : String) (now : Nat)
    (prev : List TerminalLine) : List TerminalLine :=
  jsSliceLast 100 prev ++ [{ type := ty, text := "> " ++ text, time := now }]

/-- Embeds `maxReconnectAttempts` of `ForkWebSocket`. -/
def maxReconnectAttempts : Nat := 5

/-- Embeds `reconnectDelay` of `ForkWebSocket` (milliseconds). -/
def reconnectDelay : Nat := 1000

/-- Embeds `attemptReconnect` (part_000 lines 283-290): if fewer than
`maxReconnectAttempts` attempts have been made, increment the counter and
schedule a reconnect after `reconnectDelay * 2 ^ (attempts - 1)` ms
(computed from the incremented counter); otherwise do nothing.  The result
is `some (newState, delay)` when a reconnect is scheduled, `none` when the
transport is given up.  -/
def attemptReconnect (s : WsState) : Option (WsState × Nat) :=
  if s.reconnectAttempts < maxReconnectAttempts then
    let a := s.reconnectAttempts + 1
    some ({ reconnectAttempts := a }, reconnectDelay * 2 ^ (a - 1))
  else none

/-- The `onopen` handler of `ForkWebSocket.connect` (part_000 lines
255-258): a successful connection resets the attempt counter. -/
def wsOnOpen (_ : WsState) : WsState :=
  { reconnectAttempts := 0 }

/-- A minimal concrete fork used by concrete evaluations. -/
def mkFork (id : String) (st : ForkStatus) : Fork :=
  { id := id
    agent := "claude"
    model := "opus"
    modelTier := ModelTier.default
    status := st
    task := "t"
    prompt := "t"
    startedAt := 0
    completedAt := none
    duration := none
    progress := 0
    pid := none
    output := []
    includeSummary := false
    workflowId := none }

/-- A map whose transformer fixes every element of the list is the
identity on that list. -/
theorem mapIdOn {α : Type} {g : α → α} :
    ∀ {l : List α}, (∀ x ∈ l, g x = x) → l.map g = l := by
  intro l h
  induction l with
  | nil => rfl
  | cons a t ih =>
      simp only [List.map_cons]
      rw [h a (by simp), ih (fun x hx => h x (by simp [hx]))]

/-- Claim C9: every `addTerminalLine` call appends exactly one timestamped
line of the caller-supplied type at the end, keeps the retained lines as an
unmodified suffix of the previous log, and bounds the log length by a fixed
constant (101 = the 100 most recent previous lines plus the new one). -/
theorem claim_c9_activity_log (ty : TermType) (text : String) (now : Nat)
    (prev : List TerminalLine) :
    (addTerminalLine ty text now prev).length ≤ 101 ∧
    (addTerminalLine ty text now prev).getLast? =
      some { type := ty, text := "> " ++ text, time := now } ∧
    (addTerminalLine ty text now prev).dropLast <:+ prev := by
  refine ⟨?_, ?_, ?_⟩
  · simp only [addTerminalLine, jsSliceLast, List.length_append,
      List.length_drop, List.length_cons, List.length_nil]
    omega
  · simp [addTerminalLine, List.getLast?_concat]
  · rw [addTerminalLine, List.dropLast_concat]
    exact List.drop_suffix _ _

/-- Claim C8: reconnection is attempted at most `maxReconnectAttempts = 5`
times; the k-th attempt (k prior failed attempts recorded) is scheduled
after `reconnectDelay * 2 ^ k` ms, i.e. the delay doubles from the 1000 ms
base; once the counter reaches the bound no reconnect is scheduled; a
successful open resets the counter to zero. -/
theorem claim_c8_reconnect_backoff (k : Nat) (s : WsState) :
    (k < maxReconnectAttempts →
      attemptReconnect { reconnectAttempts := k } =
        some ({ reconnectAttempts := k + 1 }, reconnectDelay * 2 ^ k)) ∧
    (maxReconnectAttempts ≤ s.reconnectAttempts → attemptReconnect s = none) ∧
    (wsOnOpen s).reconnectAttempts = 0 := by
  refine ⟨fun h => ?_, fun h => ?_, rfl⟩
  · simp [attemptReconnect, h]
  · simp [attemptReconnect]
    omega

theorem claim_c8_reconnect_backoff_witness :
    attemptReconnect { reconnectAttempts := 2 } =
      some ({ reconnectAttempts := 3 }, reconnectDelay * 2 ^ 2) ∧
    attemptReconnect { reconnectAttempts := 5 } = none ∧
    (wsOnOpen { reconnectAttempts := 3 }).reconnectAttempts = 0 :=
  ⟨(claim_c8_reconnect_backoff 2 { reconnectAttempts := 5 }).1 (by decide),
   (claim_c8_reconnect_backoff 2 { reconnectAttempts := 5 }).2.1 (by decide),
   (claim_c8_reconnect_backoff 2 { reconnectAttempts := 3 }).2.2⟩

/-- Claim C10: the admission decision reads only the locally-created fork
registry and the settings; two component states that differ only in the
Gateway-fetched fork list yield the same `canLaunchFork` answer. -/
theorem claim_c10_admission_local_only (s1 s2 : UiState)
    (hl : s1.localForks = s2.localForks) (hs : s1.settings = s2.settings) :
    canLaunchForkState s1 = canLaunchForkState s2 := by
  simp [canLaunchForkState, canLaunchFork, hl, hs]

theorem claim_c10_admission_local_only_witness :
    canLaunchForkState
      { localForks := [], apiForks := [mkFork "r" ForkStatus.running],
        settings := { autoFocus := true, soundEnabled := true, maxConcurrent := 1 } } =
    canLaunchForkState
      { localForks := [], apiForks := [],
        settings := { autoFocus := true, soundEnabled := true, maxConcurrent := 1 } } :=
  claim_c10_admission_local_only _ _ rfl rfl

/-- Claim C2 (amended): for a fork whose status is in the terminal set,
the local-registry update of `cancelFork` and the progress tick leave the
record entirely unchanged (elementwise and over the registry); conversely
the `fork_completed`, `fork_failed` and `terminateFork` updates write
their target status to the matching record unconditionally, and a
`fork_update` event replaces the matching record wholesale by the event
payload — so each of the four can move the fork out of its terminal
status. -/
theorem claim_c2_terminal_absorbing_amended (f u : Fork) (forkId err : String)
    (now : Nat) (r : TickRand) (h : isTerminal f.status = true) :
    (cancelForkStep forkId now f = f ∧ tickStep r now f = f ∧
     cancelForkLocal forkId now [f] = [f] ∧
     progressTick (fun _ => r) now [f] = [f]) ∧
    ((forkCompletedStep f.id now f).status = ForkStatus.completed ∧
     (forkFailedStep f.id err now f).status = ForkStatus.failed ∧
     (terminateForkStep f.id f).status = ForkStatus.terminated ∧
     (f.id = u.id → forkUpdateEvent u [f] = [u])) := by
  have hstep : cancelForkStep forkId now f = f ∧ tickStep r now f = f := by
    cases hs : f.status <;>
      first
        | (rw [hs] at h; exact absurd h (by decide))
        | exact ⟨by simp [cancelForkStep, cancellable, hs],
                 by simp [tickStep, hs]⟩
  refine ⟨⟨hstep.1, hstep.2, ?_, ?_⟩,
    by simp [forkCompletedStep], by simp [forkFailedStep],
    by simp [terminateForkStep], fun he => by simp [forkUpdateEvent, he]⟩
  · simp [cancelForkLocal, hstep.1]
  · simp [progressTick, hstep.2]

theorem claim_c2_terminal_absorbing_amended_witness :
    cancelForkLocal "x" 3 [mkFork "x" ForkStatus.completed] =
      [mkFork "x" ForkStatus.completed] ∧
    (forkFailedStep "x" "boom" 3 (mkFork "x" ForkStatus.completed)).status =
      ForkStatus.failed ∧
    forkUpdateEvent (mkFork "x" ForkStatus.running)
        [mkFork "x" ForkStatus.completed] = [mkFork "x" ForkStatus.running] :=
  ⟨(claim_c2_terminal_absorbing_amended (mkFork "x" ForkStatus.completed)
      (mkFork "x" ForkStatus.running) "x" "boom" 3
      { incr := 5, emit := false, text := "", succeed := true }
      (by decide)).1.2.2.1,
   (claim_c2_terminal_absorbing_amended (mkFork "x" ForkStatus.completed)
      (mkFork "x" ForkStatus.running) "x" "boom" 3
      { incr := 5, emit := false, text := "", succeed := true }
      (by decide)).2.2.1,
   (claim_c2_terminal_absorbing_amended (mkFork "x" ForkStatus.completed)
      (mkFork "x" ForkStatus.running) "x" "boom" 3
      { incr := 5, emit := false, text := "", succeed := true }
      (by decide)).2.2.2.2 (by decide)⟩

/-- Claim C2 counterexample: a fork in the terminal status `completed`
changes status to `failed` when a `fork_failed` event for its id is
reconciled, so terminal states are not absorbing as claimed. -/
theorem claim_c2_counterexample :
    statusOf [mkFork "x" ForkStatus.completed] "x" = some ForkStatus.completed ∧
    statusOf (forkFailedEvent "x" "boom" 5 [mkFork "x" ForkStatus.completed]) "x" =
      some ForkStatus.failed := by
  decide

/-- Claim C5 (amended): a `fork_update`, `fork_completed` or `fork_failed`
event whose fork id matches no record in the registry leaves the registry
unchanged — nothing is inserted. -/
theorem claim_c5_unknown_id_amended (u : Fork) (id err : String) (now : Nat)
    (forks : List Fork)
    (h1 : ∀ f ∈ forks, f.id ≠ u.id) (h2 : ∀ f ∈ forks, f.id ≠ id) :
    forkUpdateEvent u forks = forks ∧
    forkCompletedEvent id now forks = forks ∧
    forkFailedEvent id err now forks = forks := by
  refine ⟨mapIdOn (fun f hf => ?_), mapIdOn (fun f hf => ?_),
    mapIdOn (fun f hf => ?_)⟩
  · simp [h1 f hf]
  · simp [forkCompletedStep, h2 f hf]
  · simp [forkFailedStep, h2 f hf]

theorem claim_c5_unknown_id_amended_witness :
    forkUpdateEvent (mkFork "y" ForkStatus.running) [mkFork "x" ForkStatus.running] =
      [mkFork "x" ForkStatus.running] ∧
    forkCompletedEvent "y" 7 [mkFork "x" ForkStatus.running] =
      [mkFork "x" ForkStatus.running] ∧
    forkFailedEvent "y" "e" 7 [mkFork "x" ForkStatus.running] =
      [mkFork "x" ForkStatus.running] :=
  claim_c5_unknown_id_amended (mkFork "y" ForkStatus.running) "y" "e" 7
    [mkFork "x" ForkStatus.running] (by decide) (by decide)

/-- Claim C5 counterexample: a `fork_completed` event for an id unknown to
the registry inserts nothing — the registry stays empty and no record with
status `completed` appears. -/
theorem claim_c5_counterexample :
    forkCompletedEvent "x" 7 [] = ([] : List Fork) ∧
    statusOf (forkCompletedEvent "x" 7 []) "x" = none ∧
    forkUpdateEvent (mkFork "x" ForkStatus.running) [] = ([] : List Fork) := by
  decide

/-- Claim C4 (amended): every per-record update of the reconciliation and
lifecycle layer except the `fork_update` handler only extends a fork's
output — the old output is a prefix of the new one.  (`fork_update`
replaces the record, output included, with the event payload; see the
counterexample.) -/
theorem claim_c4_output_append_only_amended (f : Fork) (forkId text err : String)
    (now randPid : Nat) (r : TickRand) (res : Option ApiForkResult) :
    f.output <+: (forkOutputStep forkId text now f).output ∧
    f.output <+: (forkCompletedStep forkId now f).output ∧
    f.output <+: (forkFailedStep forkId err now f).output ∧
    f.output <+: (tickStep r now f).output ∧
    f.output <+: (cancelForkStep forkId now f).output ∧
    f.output <+: (terminateForkStep forkId f).output ∧
    f.output <+: (spawnStep forkId now f).output ∧
    f.output <+: (applyCreateStep forkId res randPid f).output := by
  have happ : ∀ x : OutputLine, f.output <+: f.output ++ [x] :=
    fun x => List.prefix_append _ _
  refine ⟨?_, ?_, ?_, ?_, ?_, ?_, ?_, ?_⟩
  · unfold forkOutputStep
    split
    · exact happ _
    · exact List.prefix_refl _
  · unfold forkCompletedStep
    split <;> exact List.prefix_refl _
  · unfold forkFailedStep
    split
    · exact happ _
    · exact List.prefix_refl _
  · unfold tickStep
    split
    · dsimp only
      rw [apply_ite Fork.output]
      dsimp only
      simp only [ite_self]
      split
      · exact happ _
      · exact List.prefix_refl _
    · exact List.prefix_refl _
  · unfold cancelForkStep
    split <;> exact List.prefix_refl _
  · unfold terminateForkStep
    split <;> exact List.prefix_refl _
  · unfold spawnStep
    split <;> exact List.prefix_refl _
  · unfold applyCreateStep
    cases res <;> (dsimp only []; split <;> exact List.prefix_refl _)

/-- Claim C4 counterexample: a `fork_update` event replaces the record
wholesale, so the previously read output `[(0, a)]` is overwritten by the
event's empty output, and the later read is not an extension of the
earlier one. -/
theorem claim_c4_counterexample :
    outputOf [{ mkFork "x" ForkStatus.running with
                output := [{ time := 0, text := "a" }] }] "x" =
      some [{ time := 0, text := "a" }] ∧
    outputOf (forkUpdateEvent (mkFork "x" ForkStatus.running)
        [{ mkFork "x" ForkStatus.running with
           output := [{ time := 0, text := "a" }] }]) "x" = some [] ∧
    ¬ ([({ time := 0, text := "a" } : OutputLine)] <+: ([] : List OutputLine)) := by
  refine ⟨by decide, by decide, ?_⟩
  rintro ⟨t, ht⟩
  simp at ht

/-- Claim C1: with N local forks in `{queued, spawning, running}` at the
time of the call, a `launchSingleFork` with a non-empty prompt leaves the
newly created fork `queued` without any Gateway create call and without
changing the number of `running` forks when N ≥ maxConcurrent, and when
N < maxConcurrent it calls the Gateway and the new fork proceeds to
`spawning` (the registry written before the Gateway call shows it
`spawning`). -/
theorem claim_c1_single_launch_admission (agents : String → Option AgentConfig)
    (c : Nat) (agent : String) (tier : ModelTier) (prompt : String) (inc : Bool)
    (apiResult : Option ApiForkResult) (randPid now maxC : Nat)
    (localForks : List Fork) (hp : jsTrim prompt ≠ "") :
    let fork := createLocalFork agents c agent tier prompt inc none now
    let r := launchSingleFork agents c agent tier prompt inc apiResult randPid now maxC localForks
    (maxC ≤ (localForks.filter (fun f => isActive f.status)).length →
      r.gatewayCalled = false ∧ r.forks = fork :: localForks ∧
      fork.status = ForkStatus.queued ∧
      runningCount r.forks = runningCount localForks) ∧
    ((localForks.filter (fun f => isActive f.status)).length < maxC →
      r.gatewayCalled = true ∧
      r.spawnForks = some (setStatusSpawning fork.id now (fork :: localForks)) ∧
      statusOf (setStatusSpawning fork.id now (fork :: localForks)) fork.id =
        some ForkStatus.spawning) := by
  intro fork r
  have hrr : r = launchFork localForks maxC fork apiResult randPid now (fork :: localForks) := by
    show launchSingleFork agents c agent tier prompt inc apiResult randPid now maxC localForks = _
    unfold launchSingleFork
    rw [if_neg hp]
  constructor
  · intro h
    have hc : canLaunchFork localForks maxC = false := by
      simp only [canLaunchFork, decide_eq_false_iff_not]
      omega
    rw [hrr]
    unfold launchFork
    rw [hc]
    refine ⟨rfl, rfl, rfl, ?_⟩
    have hq : fork.status = ForkStatus.queued := rfl
    show runningCount (fork :: localForks) = runningCount localForks
    simp [runningCount, List.filter_cons, hq]
  · intro h
    have hc : canLaunchFork localForks maxC = true := by
      simp only [canLaunchFork, decide_eq_true_eq]
      exact h
    rw [hrr]
    unfold launchFork
    rw [hc]
    refine ⟨rfl, rfl, ?_⟩
    simp [statusOf, setStatusSpawning, spawnStep, List.find?_cons]

theorem claim_c1_single_launch_admission_witness :
    (launchSingleFork (fun _ => (none : Option AgentConfig)) 1 "claude"
        ModelTier.default "x" false none 0 0 0 []).gatewayCalled = false ∧
    (launchSingleFork (fun _ => (none : Option AgentConfig)) 2 "claude"
        ModelTier.default "x" false none 0 0 3 []).gatewayCalled = true :=
  ⟨((claim_c1_single_launch_admission (fun _ => none) 1 "claude" ModelTier.default
      "x" false none 0 0 0 [] (by decide)).1 (by decide)).1,
   ((claim_c1_single_launch_admission (fun _ => none) 2 "claude" ModelTier.default
      "x" false none 0 0 3 [] (by decide)).2 (by decide)).1⟩

/-- Claim C6: `retryFork` on a failed or cancelled fork creates a new fork
whose id (the next local placeholder id) differs from the original's and
whose agent, modelTier, task, includeSummary and workflowId equal the
original's; every pre-existing record, the original included, is left
unchanged (the launched registry is the new record consed onto the old
registry). -/
theorem claim_c6_retry_fresh_id (agents : String → Option AgentConfig) (c : Nat)
    (fork : Fork) (apiResult : Option ApiForkResult) (randPid now maxC : Nat)
    (localForks : List Fork)
    (hst : fork.status = ForkStatus.failed ∨ fork.status = ForkStatus.cancelled)
    (hmem : fork ∈ localForks)
    (hfresh : ∀ f ∈ localForks, f.id ≠ localId c) :
    let newFork := createLocalFork agents c fork.agent fork.modelTier fork.task
      fork.includeSummary fork.workflowId now
    newFork.id ≠ fork.id ∧
    newFork.agent = fork.agent ∧ newFork.modelTier = fork.modelTier ∧
    newFork.task = fork.task ∧ newFork.includeSummary = fork.includeSummary ∧
    newFork.workflowId = fork.workflowId ∧
    (retryFork agents c fork apiResult randPid now maxC localForks).forks.tail =
      localForks ∧
    (retryFork agents c fork apiResult randPid now maxC localForks).forks.length =
      localForks.length + 1 := by
  intro newFork
  have hne : newFork.id ≠ fork.id := by
    show localId c ≠ fork.id
    exact fun e => hfresh fork hmem e.symm
  have hcons : ∃ x, (retryFork agents c fork apiResult randPid now maxC localForks).forks =
      x :: localForks := by
    unfold retryFork launchFork
    by_cases hcl : canLaunchFork localForks maxC = true
    · simp only [hcl, if_true]
      unfold setStatusSpawning applyCreateResult
      have hid : (createLocalFork agents c fork.agent fork.modelTier fork.task
          fork.includeSummary fork.workflowId now).id = localId c := rfl
      rw [hid]
      simp only [List.map_cons]
      rw [show List.map (spawnStep (localId c) now) localForks = localForks from
            mapIdOn (fun f hf => by simp [spawnStep, hfresh f hf])]
      rw [show List.map (applyCreateStep (localId c) apiResult randPid) localForks =
            localForks from
            mapIdOn (fun f hf => by
              cases apiResult <;> simp [applyCreateStep, hfresh f hf])]
      exact ⟨_, rfl⟩
    · simp only [hcl, Bool.false_eq_true, if_false]
      exact ⟨_, rfl⟩
  obtain ⟨x, hx⟩ := hcons
  refine ⟨hne, rfl, rfl, rfl, rfl, rfl, ?_, ?_⟩ <;> rw [hx] <;> simp

theorem claim_c6_retry_fresh_id_witness :
    (createLocalFork (fun _ => (none : Option AgentConfig)) 3 "claude"
        ModelTier.default "t" false none 9).id ≠ (mkFork "api-1" ForkStatus.failed).id ∧
    (retryFork (fun _ => (none : Option AgentConfig)) 3 (mkFork "api-1" ForkStatus.failed)
        none 0 9 5 [mkFork "api-1" ForkStatus.failed]).forks.tail =
      [mkFork "api-1" ForkStatus.failed] :=
  ⟨(claim_c6_retry_fresh_id (fun _ => none) 3 (mkFork "api-1" ForkStatus.failed) none 0 9 5
      [mkFork "api-1" ForkStatus.failed] (by decide) (by decide) (by decide)).1,
   (claim_c6_retry_fresh_id (fun _ => none) 3 (mkFork "api-1" ForkStatus.failed) none 0 9 5
      [mkFork "api-1" ForkStatus.failed] (by decide) (by decide)
      (by decide)).2.2.2.2.2.2.1⟩

/-- In `launchFork` the Gateway-dispatch decision is exactly the admission
check on the snapshot, independent of the current registry. -/
theorem launchForkGatewayCalled (snapshot : List Fork) (maxC : Nat) (fk : Fork)
    (res : Option ApiForkResult) (rp now : Nat) (forks : List Fork) :
    (launchFork snapshot maxC fk res rp now forks).gatewayCalled =
      canLaunchFork snapshot maxC := by
  unfold launchFork
  by_cases h : canLaunchFork snapshot maxC = true <;> simp [h]

/-- Every dispatch of a staggered batch carries the same Gateway-call
decision: the admission check against the snapshot taken at batch start. -/
theorem dispatchBatchCalls (snapshot : List Fork) (maxC now : Nat)
    (oracle : Nat → Option ApiForkResult × Nat) :
    ∀ (fks : List Fork) (i : Nat) (forks : List Fork),
      (dispatchBatch snapshot maxC now oracle i fks forks).2 =
        List.replicate fks.length (canLaunchFork snapshot maxC) := by
  intro fks
  induction fks with
  | nil => intro i forks; rfl
  | cons a t ih =>
      intro i forks
      simp only [dispatchBatch, List.length_cons, List.replicate_succ]
      rw [launchForkGatewayCalled, ih]

/-- Claim C7: in `launchMultiFork` and `launchWorkflow`, the Gateway-call
decision of every staggered item equals the one admission decision
computed from the registry as it stood when the batch began; no item's
dispatch re-consults `maxConcurrent` against the updated registry. -/
theorem claim_c7_batch_single_admission (agents : String → Option AgentConfig)
    (c : Nat) (queue : List QueueItem) (wf : WorkflowTemplate)
    (oracle : Nat → Option ApiForkResult × Nat) (maxC now : Nat)
    (localForks : List Fork) :
    (launchMultiFork agents c queue oracle maxC now localForks).2 =
      List.replicate queue.length (canLaunchFork localForks maxC) ∧
    (launchWorkflow agents c wf oracle maxC now localForks).2 =
      List.replicate wf.forks.length (canLaunchFork localForks maxC) := by
  constructor
  · unfold launchMultiFork
    by_cases hq : queue.isEmpty = true
    · rw [List.isEmpty_iff] at hq
      subst hq
      simp
    · rw [if_neg hq]
      dsimp only
      rw [dispatchBatchCalls]
      simp
  · unfold launchWorkflow
    dsimp only
    rw [dispatchBatchCalls]
    simp

/-- The merged lookup of an id absent locally resolves to the first
matching api fork, which a `fork_completed` event has set to `completed`. -/
theorem filterFindCompleted (id : String) (now : Nat) (localForks : List Fork)
    (habs : ∀ f ∈ localForks, f.id ≠ id) :
    ∀ api : List Fork, (∃ f ∈ api, f.id = id) →
      ((((api.map (forkCompletedStep id now)).filter
          (fun a => (localForks.find? (fun lf => lf.id = a.id)).isNone)).find?
            (fun f => f.id = id)).map (fun f => f.status)) =
        some ForkStatus.completed := by
  intro api
  induction api with
  | nil => rintro ⟨f, hf, _⟩; cases hf
  | cons a t ih =>
      rintro ⟨f, hf, hfid⟩
      simp only [List.map_cons, List.filter_cons]
      by_cases ha : a.id = id
      · have hsid : (forkCompletedStep id now a).id = id := by
          simp [forkCompletedStep, ha]
        have hcond : (localForks.find? (fun lf =>
            lf.id = (forkCompletedStep id now a).id)).isNone = true := by
          rw [hsid, List.find?_eq_none.mpr (fun x hx => by simp [habs x hx])]
          rfl
        rw [if_pos hcond, List.find?_cons_of_pos _ (by simp [hsid])]
        simp [forkCompletedStep, ha]
      · have hft : f ∈ t := by
          rcases List.mem_cons.mp hf with h1 | h1
          · exact absurd (h1 ▸ hfid) ha
          · exact h1
        have hstep : forkCompletedStep id now a = a := by
          simp [forkCompletedStep, ha]
        rw [hstep]
        by_cases hc : (localForks.find? (fun lf => lf.id = a.id)).isNone = true
        · rw [if_pos hc, List.find?_cons_of_neg _ (by simp [ha])]
          exact ih ⟨f, hft, hfid⟩
        · rw [if_neg hc]
          exact ih ⟨f, hft, hfid⟩

/-- Claim C3 (amended): a `fork_completed` event only updates the
Gateway-fetched registry, and the merged view prefers local records.  So
when the id is known only to the api registry the merged view shows
`completed` after the event, but when a local record for the id exists the
merged view keeps showing the local record's (possibly stale) status. -/
theorem claim_c3_merge_amended (id : String) (now : Nat)
    (localForks apiForks : List Fork) :
    ((∀ f ∈ localForks, f.id ≠ id) → (∃ f ∈ apiForks, f.id = id) →
      statusOf (allForks localForks (forkCompletedEvent id now apiForks)) id =
        some ForkStatus.completed) ∧
    (∀ g, localForks.find? (fun f => f.id = id) = some g →
      statusOf (allForks localForks (forkCompletedEvent id now apiForks)) id =
        some g.status) := by
  constructor
  · intro habs hex
    unfold statusOf allForks
    rw [List.find?_append,
        List.find?_eq_none.mpr (fun x hx => by simp [habs x hx])]
    simp only [Option.none_or]
    exact filterFindCompleted id now localForks habs apiForks hex
  · intro g hg
    unfold statusOf allForks
    rw [List.find?_append, hg]
    rfl

theorem claim_c3_merge_amended_witness :
    statusOf (allForks [] (forkCompletedEvent "x" 7 [mkFork "x" ForkStatus.running])) "x" =
      some ForkStatus.completed ∧
    statusOf (allForks [mkFork "x" ForkStatus.spawning]
        (forkCompletedEvent "x" 7 [mkFork "x" ForkStatus.running])) "x" =
      some (mkFork "x" ForkStatus.spawning).status :=
  ⟨(claim_c3_merge_amended "x" 7 [] [mkFork "x" ForkStatus.running]).1
      (by decide) (by decide),
   (claim_c3_merge_amended "x" 7 [mkFork "x" ForkStatus.spawning]
      [mkFork "x" ForkStatus.running]).2 (mkFork "x" ForkStatus.spawning) (by decide)⟩

/-- Claim C3 counterexample: a fork id tracked locally as `running` stays
`running` in the merged view even after a `fork_completed` event for that
id is reconciled — the authoritative terminal state does not win. -/
theorem claim_c3_counterexample :
    statusOf (allForks [mkFork "x" ForkStatus.running] [mkFork "x" ForkStatus.running]) "x" =
      some ForkStatus.running ∧
    statusOf (allForks [mkFork "x" ForkStatus.running]
        (forkCompletedEvent "x" 7 [mkFork "x" ForkStatus.running])) "x" =
      some ForkStatus.running ∧
    some ForkStatus.running ≠ some ForkStatus.completed := by
  decide
